import Mathlib

/-! A shallow embedding of the C99Simulator core: `src/js/memory.js`, the
second (current) `CExecutor` class of `src/js/main.js`, and the
expression tokenizer plus the array-declaration clause of
`src/js/parser.js`, together with theorems checking the natural-language
specification's claims about them.

Modelling conventions:
* JS `Map`s and plain objects are association lists with `mlookup`
  (first match) and `mset` (update in place, else append), matching the
  insertion-order semantics of `Map.get`/`Map.set`.
* JS numbers are modelled as `Int`; the claims under scrutiny only
  exercise integer arithmetic (`Math.floor` applied to an integer
  quotient is `Int.fdiv`, the JS `%` on integers is `Int.tmod`).
  Fractional literals never occur in the verified runs; a numeric string
  is mapped to the integer part of its decimal value.
* JS `undefined`, `null` and `NaN` are the `Value` constructors
  `vUndefined`, `vNull` and `vNaN`.
* `Memory.getVariable` can recurse forever in the JS source, so it takes
  an explicit fuel argument; `none` means the fuel ran out.
* The frame stack `stackFrames` is stored head-first (head = top).
* Core Lean `String` functions are avoided in favour of structural
  recursion over `List Char`, so that every definition evaluates by
  kernel reduction.
-/

namespace C99

/-- Association-list lookup, first match wins (JS `Map.get` /
property read). -/
def mlookup {α β : Type} [DecidableEq α] : List (α × β) → α → Option β
  | [], _ => none
  | (k, v) :: rest, key => if k = key then some v else mlookup rest key

/-- Association-list update: overwrite in place when the key is present,
append at the end otherwise (JS `Map.set` / property write, which keeps
insertion order). -/
def mset {α β : Type} [DecidableEq α] : List (α × β) → α → β → List (α × β)
  | [], key, v => [(key, v)]
  | (k, w) :: rest, key, v =>
      if k = key then (k, v) :: rest else (k, w) :: mset rest key v

/-- A JavaScript runtime value as the simulator stores and passes them. -/
inductive Value where
  | vInt (n : Int)
  | vStr (s : String)
  | vUndefined
  | vNull
  | vNaN
deriving Repr, DecidableEq

/-- JS whitespace for `trim` and `\s`. -/
def jsIsSpace (c : Char) : Bool :=
  c = ' ' || c = '\t' || c = '\n' || c = '\r' || c = '\x0b' || c = '\x0c'

/-- JS `String.prototype.trim`. -/
def jsTrim (s : String) : String :=
  String.mk (((s.toList.dropWhile jsIsSpace).reverse.dropWhile jsIsSpace).reverse)

/-- Whether the first list starts with the second one. -/
def listStartsWith : List Char → List Char → Bool
  | _, [] => true
  | [], _ :: _ => false
  | c :: cs, p :: ps => c = p && listStartsWith cs ps

/-- JS `String.prototype.startsWith`. -/
def jsStartsWith (s pre : String) : Bool := listStartsWith s.toList pre.toList

/-- JS `String.prototype.endsWith`. -/
def jsEndsWith (s suf : String) : Bool :=
  listStartsWith s.toList.reverse suf.toList.reverse

/-- Substring search on character lists. -/
def strContainsAux : List Char → List Char → Bool
  | [], pat => listStartsWith [] pat
  | c :: cs, pat => listStartsWith (c :: cs) pat || strContainsAux cs pat

/-- JS `String.prototype.includes`. -/
def strContains (s pat : String) : Bool := strContainsAux s.toList pat.toList

/-- `\w`, a JS word character. -/
def isWordChar (c : Char) : Bool :=
  ('a' ≤ c && c ≤ 'z') || ('A' ≤ c && c ≤ 'Z') || ('0' ≤ c && c ≤ '9') || c = '_'

/-- `\d`, a decimal digit. -/
def isDigitChar (c : Char) : Bool := '0' ≤ c && c ≤ '9'

/-- All characters are decimal digits. -/
def digitsOnly : List Char → Bool
  | [] => true
  | c :: cs => isDigitChar c && digitsOnly cs

/-- The unsigned part of a JS decimal numeral: digits with at most one
dot and at least one digit overall. -/
def isNumericAfterSign (cs : List Char) : Bool :=
  let intPart := cs.takeWhile isDigitChar
  match cs.dropWhile isDigitChar with
  | [] => !intPart.isEmpty
  | '.' :: frac => digitsOnly frac && (!intPart.isEmpty || !frac.isEmpty)
  | _ => false

/-- JS `!isNaN(str)`: whether `Number(str)` is a number.  The simulator
only ever feeds it plain decimal forms; `Number("") = 0`, so the empty
(or all-blank) string counts as numeric. -/
def isNumericString (s : String) : Bool :=
  match (jsTrim s).toList with
  | [] => true
  | '+' :: rest => isNumericAfterSign rest
  | '-' :: rest => isNumericAfterSign rest
  | t => isNumericAfterSign t

/-- Numeric value of a digit list. -/
def natOfDigits (cs : List Char) : Nat :=
  cs.foldl (fun acc c => acc * 10 + (c.toNat - 48)) 0

/-- Integer read off a numeric string (used for both `parseInt` and
`parseFloat`/`Number`; the verified runs only produce integer-valued
numerals, for which the three agree).  `vNaN` when there is no digit to
read, matching `parseInt("")`. -/
def numericStringToInt (cs : List Char) : Value :=
  let core := match cs with
    | '+' :: rest => rest
    | '-' :: rest => rest
    | t => t
  let neg : Bool := match cs with
    | '-' :: _ => true
    | _ => false
  let intPart := core.takeWhile isDigitChar
  let frac := (core.dropWhile isDigitChar).dropWhile (fun c => c = '.') |>.takeWhile isDigitChar
  if intPart.isEmpty && frac.isEmpty then .vNaN
  else
    let n : Int := Int.ofNat (natOfDigits intPart)
    .vInt (if neg then -n else n)

/-- JS `Number(v)` on a runtime value; `none` is NaN. -/
def jsToNumber : Value → Option Int
  | .vInt n => some n
  | .vStr s =>
      let t := jsTrim s
      if t.toList.isEmpty then some 0
      else if isNumericString s then
        match numericStringToInt t.toList with
        | .vInt n => some n
        | _ => none
      else none
  | .vUndefined => none
  | .vNull => some 0
  | .vNaN => none

/-- JS truthiness of a runtime value. -/
def jsTruthy : Value → Bool
  | .vInt n => n ≠ 0
  | .vStr s => s ≠ ""
  | _ => false

/-- JS `===` on the runtime values the simulator compares. -/
def jsStrictEq : Value → Value → Bool
  | .vInt a, .vInt b => a = b
  | .vStr a, .vStr b => a = b
  | .vUndefined, .vUndefined => true
  | .vNull, .vNull => true
  | _, _ => false

/-- JS string coercion of a runtime value (template literals,
`String.replace` callback results). -/
def jsValueToString : Value → String
  | .vInt n => toString n
  | .vStr s => s
  | .vUndefined => "undefined"
  | .vNull => "null"
  | .vNaN => "NaN"

/-- JS `<` on two strings: lexicographic by code unit. -/
def listLtChars : List Char → List Char → Bool
  | [], [] => false
  | [], _ :: _ => true
  | _ :: _, [] => false
  | a :: as, b :: bs =>
      if a.toNat < b.toNat then true
      else if b.toNat < a.toNat then false
      else listLtChars as bs

/-- JS string comparison `a < b`. -/
def jsStrLt (a b : String) : Bool := listLtChars a.toList b.toList

/-- JS `*` on two runtime values (the executor multiplies in the
recursive-return special case). -/
def jsMul (a b : Value) : Value :=
  match jsToNumber a, jsToNumber b with
  | some x, some y => .vInt (x * y)
  | _, _ => .vNaN

/-- Symbol metadata, the entries of `Memory.variableMetadata`. -/
inductive VarMeta where
  | array (elementType : String) (elementSize : Nat) (arraySize : Nat)
      (address : Nat) (scope : String) (name : String)
  | simple (type : String) (isPointer : Bool) (size : Nat) (address : Nat)
      (scope : String) (name : String)
deriving Repr, DecidableEq

/-- A call-stack frame (`Memory.pushStackFrame`).  `vars` models the JS
`variables` map, `variables` being reserved in Lean; `func` models the
JS `function` property. -/
structure Frame where
  id : Nat
  func : String
  caller : Option String
  parameters : List (String × Nat)
  vars : List (String × Nat)
  returnAddress : Option Nat
  returnValue : Value
deriving Repr, DecidableEq

/-- The state owned by the `Memory` class of `src/js/memory.js`. -/
structure MemState where
  memory : List (Nat × Value)
  pointers : List (Nat × Option Nat)
  variableAddresses : List (String × Nat)
  variableMetadata : List (String × VarMeta)
  nextAddress : Nat
  stackFrames : List Frame
  lastReturnValues : List (String × Value)
deriving Repr, DecidableEq

namespace Memory

/-- `Memory.reset` (also the constructor's initial state). -/
def reset : MemState :=
  { memory := [], pointers := [], variableAddresses := [],
    variableMetadata := [], nextAddress := 0x1000, stackFrames := [],
    lastReturnValues := [] }

/-- `Memory.allocate`: monotonic bump allocation. -/
def allocate (m : MemState) (size : Nat) : Nat × MemState :=
  (m.nextAddress, { m with nextAddress := m.nextAddress + size })

/-- `Memory.getSizeForType`. -/
def getSizeForType (type : String) : Nat :=
  if strContains type "char" then 1
  else if strContains type "short" then 2
  else if strContains type "int" || strContains type "float" || strContains type "*" then 4
  else if strContains type "double" || strContains type "long" then 8
  else 4

/-- `Memory.getDefaultValueForType` (the JS `0.0` for float/double is the
same number `0`). -/
def getDefaultValueForType (type : String) : Value :=
  if strContains type "char" then .vInt 0
  else if strContains type "int" || strContains type "short" || strContains type "long" then .vInt 0
  else if strContains type "float" || strContains type "double" then .vInt 0
  else if strContains type "*" then .vInt 0
  else .vInt 0

/-- `Memory.parseValue`. -/
def parseValue : Value → Value
  | .vNull => .vInt 0
  | .vUndefined => .vInt 0
  | .vStr s =>
      let value := jsTrim s
      if jsStartsWith value "&" then .vStr value
      else if isNumericString value then numericStringToInt value.toList
      else if jsStartsWith value "'" && jsEndsWith value "'" && value.length = 3 then
        match value.toList with
        | [_, c, _] => .vInt c.toNat
        | _ => .vStr value
      else .vStr value
  | v => v

/-- JS `this.memory.get(address)`: `undefined` when the address was never
written. -/
def memRead (m : MemState) (address : Nat) : Value :=
  (mlookup m.memory address).getD .vUndefined

/-- The array-declaration AST node's `size` field: a number or a symbolic
(unresolved) name. -/
inductive ArrSize where
  | num (n : Int)
  | symbolic (s : String)
deriving Repr, DecidableEq

/-- The array-declaration AST node's `initialValue` field: an initializer
list (elements already number-or-string) or a quoted string literal. -/
inductive ArrInit where
  | list (items : List Value)
  | str (raw : String)
deriving Repr, DecidableEq

/-- The second argument of `Memory.declareVariable`: either a plain type
string or the array-declaration AST node. -/
inductive DeclInfo where
  | simple (type : String)
  | arrayNode (varType : String) (size : Option ArrSize) (initialValue : Option ArrInit)
deriving Repr, DecidableEq

/-- Value stored for index `i` of a freshly declared array: the body of
the per-element loop in `Memory.declareVariable`. -/
def arrayElemValue (elementType : String) (ini : Option ArrInit) (i : Nat) : Value :=
  let dflt := getDefaultValueForType elementType
  match ini with
  | none => dflt
  | some (.list items) =>
      match items.get? i with
      | some it => parseValue it
      | none => dflt
  | some (.str raw) =>
      if elementType = "char" then
        let strValue := (raw.toList.drop 1).dropLast
        match strValue.get? i with
        | some c => .vInt c.toNat
        | none => if i = strValue.length then .vInt 0 else dflt
      else dflt

/-- The per-element initialisation loop of the array branch of
`Memory.declareVariable`. -/
def writeArrayElements (elementType : String) (ini : Option ArrInit)
    (baseAddress elementSize numElements : Nat) (m : MemState) : MemState :=
  (List.range numElements).foldl (fun acc i =>
    let currentAddress := baseAddress + i * elementSize
    let valueToStore := arrayElemValue elementType ini i
    { acc with memory := mset acc.memory currentAddress valueToStore }) m

/-- `Memory.declareVariable`.  Returns the allocated address (`none`
models the JS `undefined` failure result) and the next state. -/
def declareVariable (m : MemState) (name : String) (info : DeclInfo)
    (initialValueForSimpleType : Option String) (scope : String) :
    Option Nat × MemState :=
  match info with
  | .arrayNode elementType sizeNode arrayInitializers =>
      match sizeNode with
      | some (.num n) =>
          if n ≤ 0 then (none, m)
          else
            let numElements := n.toNat
            let elementSize := getSizeForType elementType
            let totalSize := numElements * elementSize
            let (baseAddress, m1) := allocate m totalSize
            let key := scope ++ ":" ++ name
            let m2 := { m1 with
              variableAddresses := mset m1.variableAddresses key baseAddress,
              variableMetadata := mset m1.variableMetadata key
                (.array elementType elementSize numElements baseAddress scope name) }
            let m3 := writeArrayElements elementType arrayInitializers baseAddress elementSize numElements m2
            (some baseAddress, m3)
      | _ => (none, m)
  | .simple type =>
      let isPointer := strContains type "*"
      let size := getSizeForType type
      let (address, m1) := allocate m size
      let key := scope ++ ":" ++ name
      let m2 := { m1 with
        variableAddresses := mset m1.variableAddresses key address,
        variableMetadata := mset m1.variableMetadata key
          (.simple type isPointer size address scope name) }
      if isPointer then
        let m3 := { m2 with memory := mset m2.memory address (.vInt 0),
                            pointers := mset m2.pointers address none }
        match initialValueForSimpleType with
        | some v =>
            (some address,
             { m3 with memory := mset m3.memory address (parseValue (.vStr v)) })
        | none => (some address, m3)
      else
        let v := match initialValueForSimpleType with
          | some v => parseValue (.vStr v)
          | none => getDefaultValueForType type
        (some address, { m2 with memory := mset m2.memory address v })

/-- `Memory.getVariableInfo`: metadata in the given scope, falling back
to the global scope. -/
def getVariableInfo (m : MemState) (name : String) (scope : String) : Option VarMeta :=
  match mlookup m.variableMetadata (scope ++ ":" ++ name) with
  | some info => some info
  | none =>
      if scope ≠ "global" then mlookup m.variableMetadata ("global:" ++ name)
      else none

/-- `Memory.setVariable`: writes only through the exact given scope's
address; `false` (no-op) when the name is not bound there. -/
def setVariable (m : MemState) (name : String) (value : Value) (scope : String) :
    Bool × MemState :=
  match mlookup m.variableAddresses (scope ++ ":" ++ name) with
  | none => (false, m)
  | some address =>
      match value with
      | .vStr s =>
          if jsStartsWith s "&" then
            let targetVarName := String.mk (s.toList.drop 1)
            match mlookup m.variableAddresses (scope ++ ":" ++ targetVarName) with
            | some targetAddress =>
                (true, { m with
                  memory := mset m.memory address (.vInt targetAddress),
                  pointers := mset m.pointers address (some targetAddress) })
            | none => (false, m)
          else
            (true, { m with memory := mset m.memory address (parseValue (.vStr s)) })
      | v => (true, { m with memory := mset m.memory address (parseValue v) })

/-- `Memory.getCurrentFrame`. -/
def getCurrentFrame (m : MemState) : Option Frame := m.stackFrames.head?

/-- `Memory.getVariable` with fuel.  Resolution: the given scope, then
the global scope, then — when a frame exists and the TOP frame has a
caller — a recursive lookup in that caller's scope.  The recursion never
moves past the top frame, so it can call itself with unchanged arguments
forever; `none` reports fuel exhaustion. -/
def getVariable : Nat → MemState → String → String → Option Value
  | 0, _, _, _ => none
  | fuel + 1, m, name, scope =>
      match mlookup m.variableAddresses (scope ++ ":" ++ name) with
      | some a => some (memRead m a)
      | none =>
          if scope ≠ "global" then
            match mlookup m.variableAddresses ("global:" ++ name) with
            | some a => some (memRead m a)
            | none =>
                match m.stackFrames.head? with
                | some currentFrame =>
                    match currentFrame.caller with
                    | some c => if c ≠ "" then getVariable fuel m name c else some .vUndefined
                    | none => some .vUndefined
                | none => some .vUndefined
          else some .vUndefined

/-- `Memory.getVariableAddress`. -/
def getVariableAddress (m : MemState) (name : String) (scope : String) : Option Nat :=
  mlookup m.variableAddresses (scope ++ ":" ++ name)

/-- The per-parameter loop body of `Memory.pushStackFrame`: allocate a
4-byte cell, store the parsed value, bind the callee-scope key, extend
the frame's parameter record. -/
def pushParamStep (functionName : String) (acc : Frame × MemState) (pv : String × Value) :
    Frame × MemState :=
  let (address, mz) := allocate acc.2 4
  let mz := { mz with
    memory := mset mz.memory address (parseValue pv.2),
    variableAddresses := mset mz.variableAddresses (functionName ++ ":" ++ pv.1) address }
  ({ acc.1 with parameters := acc.1.parameters ++ [(pv.1, address)] }, mz)

/-- `Memory.pushStackFrame`: allocates a 4-byte cell per parameter,
binds it under the callee's scope and pushes the new frame. -/
def pushStackFrame (m : MemState) (functionName : String)
    (parameters : List (String × Value)) (callerFunction : Option String) :
    Nat × MemState :=
  let frameId := m.stackFrames.length
  let frame : Frame := { id := frameId, func := functionName, caller := callerFunction,
                         parameters := [], vars := [], returnAddress := none,
                         returnValue := .vNull }
  let (frame, m1) := parameters.foldl (pushParamStep functionName) (frame, m)
  (frameId, { m1 with stackFrames := frame :: m1.stackFrames })

/-- `Memory.popStackFrame`: pops the top frame and, when it carries a
non-null return value, records it in the last-return cache. -/
def popStackFrame (m : MemState) : Option Frame × MemState :=
  match m.stackFrames with
  | [] => (none, m)
  | removedFrame :: rest =>
      let m1 := { m with stackFrames := rest }
      let m2 :=
        if removedFrame.returnValue ≠ .vNull then
          let cache := mset m1.lastReturnValues removedFrame.func removedFrame.returnValue
          { m1 with lastReturnValues := cache }
        else m1
      (some removedFrame, m2)

/-- `Memory.setReturnValue` on the current (top) frame. -/
def setReturnValue (m : MemState) (value : Value) : MemState :=
  match m.stackFrames with
  | [] => m
  | currentFrame :: rest =>
      { m with stackFrames :=
          { currentFrame with returnValue := parseValue value } :: rest }

end Memory

/-- Uppercase hex digit. -/
def hexDigitChar (n : Nat) : Char :=
  if n < 10 then Char.ofNat (48 + n) else Char.ofNat (55 + n)

/-- Hex digits of `n`, most significant first. -/
def toHexAux : Nat → Nat → List Char → List Char
  | 0, _, acc => acc
  | fuel + 1, n, acc =>
      if n = 0 then acc else toHexAux fuel (n / 16) (hexDigitChar (n % 16) :: acc)

/-- JS `n.toString(16).toUpperCase()`. -/
def toHexUpper (n : Nat) : String :=
  if n = 0 then "0" else String.mk (toHexAux (n + 1) n [])

/-- The `0x...` uppercase address strings of the snapshots. -/
def addressHex (n : Nat) : String := "0x" ++ toHexUpper n

/-- A hexadecimal digit. -/
def isHexDigit (c : Char) : Bool :=
  isDigitChar c || ('A' ≤ c && c ≤ 'F') || ('a' ≤ c && c ≤ 'f')

/-- Value of a hexadecimal digit. -/
def hexVal (c : Char) : Nat :=
  if isDigitChar c then c.toNat - 48
  else if 'a' ≤ c then c.toNat - 87
  else c.toNat - 55

/-- JS `parseInt(s, 16)` on the address strings (skips a `0x` prefix). -/
def parseHex (s : String) : Nat :=
  let cs := match s.toList with
    | '0' :: 'x' :: r => r
    | '0' :: 'X' :: r => r
    | r => r
  (cs.takeWhile isHexDigit).foldl (fun acc c => acc * 16 + hexVal c) 0

/-- One entry of `Memory.getMemorySnapshot`.  The JS objects of non-array
entries simply lack `arrayName`/`elementIndex`; that is `none` here. -/
structure SnapEntry where
  address : String
  name : String
  scope : String
  value : Value
  isPointer : Bool
  pointsTo : Option String
  isArrayElement : Bool
  arrayName : Option String
  elementIndex : Option Nat
deriving Repr, DecidableEq

/-- One entry of `Memory.getStackSnapshot`; `vars` maps a variable name
to its (hex address, value) pair. -/
structure StackEntry where
  func : String
  id : Nat
  caller : Option String
  vars : List (String × (String × Value))
  returnValue : Value
deriving Repr, DecidableEq

namespace Memory

/-- Snapshot entries contributed by one symbol's metadata (the loop body
of `Memory.getMemorySnapshot`). -/
def snapshotEntriesFor (m : MemState) (meta : VarMeta) : List SnapEntry :=
  match meta with
  | .array elementType elementSize arraySize baseAddress scope name =>
      (List.range arraySize).map (fun i =>
        let elementAddress := baseAddress + i * elementSize
        let value := memRead m elementAddress
        let isElementPointer := strContains elementType "*"
        let pointsToValue : Option String :=
          if isElementPointer then
            match mlookup m.pointers elementAddress with
            | some (some targetAddr) => some (addressHex targetAddr)
            | _ => none
          else none
        { address := addressHex elementAddress,
          name := name ++ "[" ++ toString i ++ "]", scope := scope,
          value := value, isPointer := isElementPointer,
          pointsTo := pointsToValue, isArrayElement := true,
          arrayName := some name, elementIndex := some i })
  | .simple _type varIsPointer _size address scope name =>
      let value := memRead m address
      let pointsToValue : Option String :=
        if varIsPointer then
          match mlookup m.pointers address with
          | some (some targetAddr) => some (addressHex targetAddr)
          | _ => none
        else none
      [{ address := addressHex address, name := name, scope := scope,
         value := value, isPointer := varIsPointer, pointsTo := pointsToValue,
         isArrayElement := false, arrayName := none, elementIndex := none }]

/-- The snapshot sort comparator (scope, then array index within one
array, then numeric address). -/
def snapCompare (a b : SnapEntry) : Int :=
  if jsStrLt a.scope b.scope then -1
  else if jsStrLt b.scope a.scope then 1
  else if a.isArrayElement && b.isArrayElement && a.arrayName = b.arrayName then
    (a.elementIndex.getD 0 : Int) - (b.elementIndex.getD 0 : Int)
  else (parseHex a.address : Int) - (parseHex b.address : Int)

/-- Insert into a sorted list by a JS-style comparator. -/
def sortInsert {α : Type} (cmp : α → α → Int) (x : α) : List α → List α
  | [] => [x]
  | y :: ys => if cmp x y < 0 then x :: y :: ys else y :: sortInsert cmp x ys

/-- Comparator sort (the verified snapshots have all-distinct comparator
keys, so stability questions do not arise). -/
def sortByCmp {α : Type} (cmp : α → α → Int) : List α → List α
  | [] => []
  | x :: xs => sortInsert cmp x (sortByCmp cmp xs)

/-- `Memory.getMemorySnapshot`: expand every symbol (arrays one entry per
element) and sort. -/
def getMemorySnapshot (m : MemState) : List SnapEntry :=
  sortByCmp snapCompare ((m.variableMetadata.map (fun kv => snapshotEntriesFor m kv.2)).flatten)

/-- `Memory.getStackSnapshot`, bottom-to-top (the model stores frames
head-first, hence the reverse). -/
def getStackSnapshot (m : MemState) : List StackEntry :=
  m.stackFrames.reverse.map (fun frame =>
    let vs := frame.parameters.foldl (fun acc p =>
        mset acc p.1 (addressHex p.2, memRead m p.2)) []
    let vs := frame.vars.foldl (fun acc p =>
        mset acc p.1 (addressHex p.2, memRead m p.2)) vs
    { func := frame.func, id := frame.id, caller := frame.caller,
      vars := vs, returnValue := frame.returnValue })

end Memory

namespace CParser

/-- A token produced by `CParser.parseExpression`.  In JS, identifiers,
operators and quoted literals are all plain strings (`str`), numeric
literals are numbers (`num`), and array accesses / unrecognized input
are objects. -/
inductive Token where
  | str (s : String)
  | num (n : Int)
  | arrayAccess (name : String) (indexExpression : String)
  | unknownTok (value : String)
deriving Repr, DecidableEq

/-- Integer read off a matched numeral (never NaN for `\d`-led input). -/
def intOfNumeral (cs : List Char) : Int :=
  match numericStringToInt cs with
  | .vInt n => n
  | _ => 0

/-- `^(\w+)\s*\[([^\]]+)\]` — array access; the index text is kept
unparsed (and trimmed, as in the source). -/
def tryArrayAccess (cs : List Char) : Option (Token × List Char) :=
  let w := cs.takeWhile isWordChar
  if w.isEmpty then none
  else
    match (cs.dropWhile isWordChar).dropWhile jsIsSpace with
    | '[' :: r2 =>
        let idx := r2.takeWhile (fun c => c ≠ ']')
        if idx.isEmpty then none
        else
          match r2.dropWhile (fun c => c ≠ ']') with
          | ']' :: r3 => some (.arrayAccess (String.mk w) (jsTrim (String.mk idx)), r3)
          | _ => none
    | _ => none

/-- `^"[^"]*"|^'[^']*'` — quoted literal, quotes kept. -/
def tryStringLiteral (cs : List Char) : Option (Token × List Char) :=
  match cs with
  | '"' :: r =>
      let content := r.takeWhile (fun c => c ≠ '"')
      (match r.dropWhile (fun c => c ≠ '"') with
       | '"' :: rest => some (.str (String.mk ('"' :: (content ++ ['"']))), rest)
       | _ => none)
  | '\'' :: r =>
      let content := r.takeWhile (fun c => c ≠ '\'')
      (match r.dropWhile (fun c => c ≠ '\'') with
       | '\'' :: rest => some (.str (String.mk ('\'' :: (content ++ ['\'']))), rest)
       | _ => none)
  | _ => none

/-- `^[a-zA-Z_]\w*` — identifier. -/
def tryIdentifier (cs : List Char) : Option (Token × List Char) :=
  match cs with
  | c :: _ =>
      if ('a' ≤ c && c ≤ 'z') || ('A' ≤ c && c ≤ 'Z') || c = '_' then
        some (.str (String.mk (cs.takeWhile isWordChar)), cs.dropWhile isWordChar)
      else none
  | [] => none

/-- `^\d+\.?\d*|^\.\d+` — numeric literal, stored as a number. -/
def tryNumber (cs : List Char) : Option (Token × List Char) :=
  match cs with
  | c :: _ =>
      if isDigitChar c then
        let ipart := cs.takeWhile isDigitChar
        match cs.dropWhile isDigitChar with
        | '.' :: r2 =>
            let fpart := r2.takeWhile isDigitChar
            some (.num (intOfNumeral (ipart ++ '.' :: fpart)), r2.dropWhile isDigitChar)
        | r1 => some (.num (intOfNumeral ipart), r1)
      else if c = '.' then
        match cs with
        | _ :: r2 =>
            let fpart := r2.takeWhile isDigitChar
            if fpart.isEmpty then none
            else some (.num (intOfNumeral ('.' :: fpart)), r2.dropWhile isDigitChar)
        | _ => none
      else none
  | [] => none

/-- The operator alternation, in the source's order (longest-first where
two share a prefix, exactly as written). -/
def operatorList : List String :=
  ["**", "*", "/", "%", "+", "-", "<=", ">=", "==", "!=", "<", ">", "&&", "||", "(", ")", "=", ","]

/-- First alternation member matching at the current position. -/
def firstMatchingOp (cs : List Char) : Option String :=
  operatorList.find? (fun op => listStartsWith cs op.toList)

/-- One iteration of the `CParser.parseExpression` scan loop, in source
order; the accumulated tokens are kept reversed. -/
def parseExpressionAux (fuel : Nat) (cs : List Char) (acc : List Token) : List Token :=
  match fuel, cs with
  | 0, _ => acc.reverse
  | _, [] => acc.reverse
  | fuel + 1, cs =>
      match tryArrayAccess cs with
      | some (t, rest) => parseExpressionAux fuel (rest.dropWhile jsIsSpace) (t :: acc)
      | none =>
        match tryStringLiteral cs with
        | some (t, rest) => parseExpressionAux fuel (rest.dropWhile jsIsSpace) (t :: acc)
        | none =>
          match tryIdentifier cs with
          | some (t, rest) => parseExpressionAux fuel (rest.dropWhile jsIsSpace) (t :: acc)
          | none =>
            match tryNumber cs with
            | some (t, rest) => parseExpressionAux fuel (rest.dropWhile jsIsSpace) (t :: acc)
            | none =>
              match firstMatchingOp cs with
              | some op =>
                  parseExpressionAux fuel ((cs.drop op.length).dropWhile jsIsSpace) (.str op :: acc)
              | none =>
                  if jsIsSpace (cs.headD 'x') then
                    parseExpressionAux fuel (cs.dropWhile jsIsSpace) acc
                  else
                    let seg := cs.takeWhile (fun c =>
                      !(jsIsSpace c || c = '(' || c = ')' || c = ',' || c = ';'))
                    let seg := if seg.isEmpty then cs else seg
                    parseExpressionAux fuel ((cs.drop seg.length).dropWhile jsIsSpace)
                      (.unknownTok (String.mk seg) :: acc)

/-- `CParser.parseExpression`: left-to-right tokenization.  Every scan
step consumes at least one character, so `length + 1` fuel is exact. -/
def parseExpression (expr : String) : List Token :=
  let cs := (jsTrim expr).toList
  parseExpressionAux (cs.length + 1) cs []

/-- Match of `/(\w+)\s*\*\s*(\w+)\(([^)]+)\)/` at the current position
(`var * func(args)`). -/
def matchRecursiveAt (cs : List Char) : Option (String × String × String) :=
  let w1 := cs.takeWhile isWordChar
  if w1.isEmpty then none
  else
    match (cs.dropWhile isWordChar).dropWhile jsIsSpace with
    | '*' :: r3 =>
        let r4 := r3.dropWhile jsIsSpace
        let w2 := r4.takeWhile isWordChar
        if w2.isEmpty then none
        else
          match r4.dropWhile isWordChar with
          | '(' :: r6 =>
              let argChars := r6.takeWhile (fun c => c ≠ ')')
              if argChars.isEmpty then none
              else
                match r6.dropWhile (fun c => c ≠ ')') with
                | ')' :: _ => some (String.mk w1, String.mk w2, String.mk argChars)
                | _ => none
          | _ => none
    | _ => none

/-- Leftmost match of the recursive-multiply pattern anywhere in the
string (JS `String.match` without `g`). -/
def searchRecursive : List Char → Option (String × String × String)
  | [] => none
  | c :: cs =>
      match matchRecursiveAt (c :: cs) with
      | some r => some r
      | none => searchRecursive cs

/-- Characters before the last `)` of the list, when one exists (the
greedy `(.*)\)` of the call pattern). -/
def beforeLastParen (cs : List Char) : Option (List Char) :=
  match cs.reverse.dropWhile (fun c => c ≠ ')') with
  | ')' :: before => some before.reverse
  | _ => none

/-- Match of `/(\w+)\s*\((.*)\)/` at the current position. -/
def matchCallAt (cs : List Char) : Option (String × String) :=
  let w := cs.takeWhile isWordChar
  if w.isEmpty then none
  else
    match (cs.dropWhile isWordChar).dropWhile jsIsSpace with
    | '(' :: r =>
        (match beforeLastParen r with
         | some args => some (String.mk w, String.mk args)
         | none => none)
    | _ => none

/-- Leftmost match of the bare-call pattern anywhere in the string. -/
def searchCall : List Char → Option (String × String)
  | [] => none
  | c :: cs =>
      match matchCallAt (c :: cs) with
      | some r => some r
      | none => searchCall cs

/-- The raw capture groups of the array-declaration regex
`^(int|char|float|double)\s+(\w+)\s*\[\s*(\w*)\s*\](?:\s*=\s*(.+))?$`. -/
structure ArrayDeclParts where
  varType : String
  name : String
  sizeFromDecl : String
  rawInitializer : Option String
deriving Repr, DecidableEq

/-- The leading type-keyword alternation. -/
def matchTypeKeyword (cs : List Char) : Option (String × List Char) :=
  if listStartsWith cs "int".toList then some ("int", cs.drop 3)
  else if listStartsWith cs "char".toList then some ("char", cs.drop 4)
  else if listStartsWith cs "float".toList then some ("float", cs.drop 5)
  else if listStartsWith cs "double".toList then some ("double", cs.drop 6)
  else none

/-- The array-declaration regex of `CParser.parseBody` on one
(already-trimmed) statement segment. -/
def matchArrayDeclLine (line : String) : Option ArrayDeclParts :=
  match matchTypeKeyword line.toList with
  | none => none
  | some (ty, r1) =>
      if !jsIsSpace (r1.headD 'x') then none
      else
        let r2 := r1.dropWhile jsIsSpace
        let nm := r2.takeWhile isWordChar
        if nm.isEmpty then none
        else
          match (r2.dropWhile isWordChar).dropWhile jsIsSpace with
          | '[' :: r4 =>
              let r5 := r4.dropWhile jsIsSpace
              let sz := r5.takeWhile isWordChar
              (match (r5.dropWhile isWordChar).dropWhile jsIsSpace with
               | ']' :: r7 =>
                   (match r7 with
                    | [] => some ⟨ty, String.mk nm, String.mk sz, none⟩
                    | _ =>
                        match r7.dropWhile jsIsSpace with
                        | '=' :: r9 =>
                            let r10 := r9.dropWhile jsIsSpace
                            if r10.isEmpty then none
                            else some ⟨ty, String.mk nm, String.mk sz, some (String.mk r10)⟩
                        | _ => none)
               | _ => none)
          | _ => none

/-- JS `parseInt(s, 10)` restricted to `\w*` capture input: the leading
digit run, NaN (`none`) when there is none. -/
def parseIntWord (s : String) : Option Int :=
  let ds := s.toList.takeWhile isDigitChar
  if ds.isEmpty then none else some (Int.ofNat (natOfDigits ds))

/-- JS `split(',')` (the initializer-list split). -/
def splitOnCommaAux : List Char → List Char → List (List Char)
  | [], acc => [acc.reverse]
  | ',' :: cs, acc => acc.reverse :: splitOnCommaAux cs []
  | c :: cs, acc => splitOnCommaAux cs (c :: acc)

/-- The parser's `array_declaration` AST node (the `dimensions` field of
the JS node is derived from `size` and never read; it is omitted). -/
structure ArrayDeclNode where
  varType : String
  name : String
  size : Option Memory.ArrSize
  initialValue : Option Memory.ArrInit
deriving Repr, DecidableEq

/-- The array-declaration clause of `CParser.parseBody`: regex match,
size resolution (numeric, symbolic, or inferred from the initializer)
and initializer classification. -/
def parseArrayDeclLine (line : String) : Option ArrayDeclNode :=
  match matchArrayDeclLine line with
  | none => none
  | some parts =>
      let sizeFromDecl := parts.sizeFromDecl
      let initialSize : Option Memory.ArrSize :=
        if sizeFromDecl ≠ "" then
          match parseIntWord sizeFromDecl with
          | some n => some (.num n)
          | none => some (.symbolic sizeFromDecl)
        else none
      match parts.rawInitializer with
      | none => some ⟨parts.varType, parts.name, initialSize, none⟩
      | some raw =>
          if jsStartsWith raw "\x7b" && jsEndsWith raw "\x7d" then
            let listContent := jsTrim (String.mk ((raw.toList.drop 1).dropLast))
            let initialValue : List Value :=
              if listContent = "" then []
              else (splitOnCommaAux listContent.toList []).map (fun item0 =>
                let item := jsTrim (String.mk item0)
                match jsToNumber (.vStr item) with
                | some n => .vInt n
                | none => .vStr item)
            let finalSize :=
              if sizeFromDecl = "" then some (Memory.ArrSize.num (Int.ofNat initialValue.length))
              else initialSize
            some ⟨parts.varType, parts.name, finalSize, some (.list initialValue)⟩
          else if parts.varType = "char" && jsStartsWith raw "\"" && jsEndsWith raw "\"" then
            let finalSize :=
              if sizeFromDecl = "" then some (Memory.ArrSize.num (Int.ofNat (raw.length - 2 + 1)))
              else initialSize
            some ⟨parts.varType, parts.name, finalSize, some (.str raw)⟩
          else
            some ⟨parts.varType, parts.name, initialSize, some (.str raw)⟩

end CParser

/-- The assignment target: either a plain name or the parser's
`array_access` object. -/
inductive LValue where
  | varName (name : String)
  | arrayAccess (name : String) (indexExpression : String)
deriving Repr, DecidableEq

/-- A statement / tape-marker variant, the `type`-tagged objects the
executor dispatches on.  Statement forms the verified claims never reach
(`while_loop`, `for_loop` and their markers) are outside the embedded
subset; like any unlisted tag they would only hit the executor's default
warning branch.  A non-recursive `return`'s `recursiveVar`/`recursiveFunc`
fields are unused (empty). -/
inductive Instr where
  | variableDeclaration (varType : String) (name : String) (initialValue : Option String)
  | arrayDeclaration (node : CParser.ArrayDeclNode)
  | assignment (target : LValue) (value : String)
  | functionCall (name : String) (args : List String)
  | ret (isRecursive : Bool) (value : String) (recursiveVar : String)
      (recursiveFunc : String) (recursiveArgs : List String)
  | ifStmt (condition : String) (thenBr : List Instr) (elseBr : Option (List Instr))
  | ifCondition (condition : String)
  | ifEnd
  | elseStart
  | elseEnd
  | functionEnd (returnTo : String)
  | unknown (code : String)
deriving Repr

/-- The JS `type` tag of an instruction (used by the executor's default
warning branch). -/
def Instr.typeName : Instr → String
  | .variableDeclaration .. => "variable_declaration"
  | .arrayDeclaration .. => "array_declaration"
  | .assignment .. => "assignment"
  | .functionCall .. => "function_call"
  | .ret .. => "return"
  | .ifStmt .. => "if"
  | .ifCondition .. => "if_condition"
  | .ifEnd => "if_end"
  | .elseStart => "else_start"
  | .elseEnd => "else_end"
  | .functionEnd .. => "function_end"
  | .unknown .. => "unknown"

/-- A function parameter `{type, name}`. -/
structure Param where
  type : String
  name : String
deriving Repr, DecidableEq

/-- A parsed function of the AST. -/
structure FuncDef where
  returnType : String
  name : String
  parameters : List Param
  body : List Instr
deriving Repr

/-- One item of the execution tape (`executionStack` entries). -/
structure TapeItem where
  func : String
  instruction : Instr
  visited : Bool
deriving Repr

/-- The state owned by the `CExecutor` class.  A JS `null` AST is the
empty function list. -/
structure ExecState where
  ast : List FuncDef
  output : List String
  currentFunction : Option String
  currentStatement : Option Instr
  executionStack : List TapeItem
  executionPointer : Nat
  isRunning : Bool
  isPaused : Bool
  completedFrames : List Frame
  mem : MemState
deriving Repr

/-- `output.push(msg); isRunning = false` — the fatal-error idiom. -/
def haltWithError (st : ExecState) (msg : String) : ExecState :=
  { st with output := st.output ++ [msg], isRunning := false }

/-- The out-of-bounds error line (template literal of the source). -/
def oobMsg (indexValue : Value) (arrayName : String) (arraySize : Nat) : String :=
  "Erro: Índice do array [" ++ jsValueToString indexValue ++
    "] fora dos limites para '" ++ arrayName ++ "'. Tamanho: " ++ toString arraySize ++ "."

/-- The not-an-array error line. -/
def notArrayMsg (arrayName : String) (scope : String) : String :=
  "Erro: '" ++ arrayName ++ "' não é um array ou não foi declarado no escopo '" ++ scope ++ "'."

/-- JS `1`/`0` from a comparison. -/
def boolVal (b : Bool) : Value := .vInt (if b then 1 else 0)

/-- JS string coercion of a token (template literals). -/
def tokenToString : CParser.Token → String
  | .str s => s
  | .num n => toString n
  | .arrayAccess _ _ => "[object Object]"
  | .unknownTok _ => "[object Object]"

/-- `JSON.stringify` of an unknown-expression token. -/
def jsonUnknownTok (v : String) : String :=
  "\x7b\"type\":\"unknown_expression_token\",\"value\":\"" ++ v ++ "\"\x7d"

namespace CExecutor

/-- `CExecutor.isLiteral` (non-string JS inputs are literal by
definition; every modelled call site passes a string). -/
def isLiteral (value : String) : Bool :=
  if isNumericString value then true
  else if (jsStartsWith value "\"" && jsEndsWith value "\"") ||
      (jsStartsWith value "'" && jsEndsWith value "'") then true
  else false

/-- The three-token arithmetic block of `CExecutor.evaluateExpression`
(`tokens.length === 3`), factored out so its semantics can be stated for
arbitrary operand values. -/
def evalThreeTokens (st : ExecState) (left : Value) (operator : CParser.Token)
    (right : Value) : Value × ExecState :=
  match jsToNumber left, jsToNumber right with
  | some numLeft, some numRight =>
      match operator with
      | .str "+" => (.vInt (numLeft + numRight), st)
      | .str "-" => (.vInt (numLeft - numRight), st)
      | .str "*" => (.vInt (numLeft * numRight), st)
      | .str "/" =>
          if numRight = 0 then (.vUndefined, haltWithError st "Erro: Divisão por zero.")
          else (.vInt (Int.fdiv numLeft numRight), st)
      | .str "%" =>
          if numRight = 0 then (.vUndefined, haltWithError st "Erro: Modulo por zero.")
          else (.vInt (Int.tmod numLeft numRight), st)
      | .str "<" => (boolVal (numLeft < numRight), st)
      | .str ">" => (boolVal (numRight < numLeft), st)
      | .str "<=" => (boolVal (numLeft ≤ numRight), st)
      | .str ">=" => (boolVal (numRight ≤ numLeft), st)
      | .str "==" => (boolVal (jsStrictEq left right), st)
      | .str "!=" => (boolVal (!jsStrictEq left right), st)
      | .str "&&" => (boolVal (numLeft ≠ 0 && numRight ≠ 0), st)
      | .str "||" => (boolVal (numLeft ≠ 0 || numRight ≠ 0), st)
      | op =>
          (.vUndefined, haltWithError st ("Erro: Operador desconhecido '" ++ tokenToString op ++ "'"))
  | _, _ =>
      match operator with
      | .str "&&" => (boolVal (jsTruthy left && jsTruthy right), st)
      | .str "||" => (boolVal (jsTruthy left || jsTruthy right), st)
      | op =>
          (.vUndefined, haltWithError st ("Erro: Operação '" ++ tokenToString op ++
            "' com operandos não numéricos: " ++ jsValueToString left ++ ", " ++
            jsValueToString right))

mutual

/-- `CExecutor.evaluateExpression` with fuel (for the potentially
non-terminating `Memory.getVariable` and the index-expression
recursion).  Address-of strings pass through; then the recursive-multiply
pattern, the bare-call pattern (both resolved against the last-return
cache, never by actually calling), then tokenization with the
1-token / 3-token / first-token-fallback dispatch. -/
def evaluateExpression : Nat → ExecState → String → String → Value × ExecState
  | 0, st, _, _ => (.vUndefined, st)
  | fuel + 1, st, expression, scope =>
      if jsStartsWith expression "&" then (.vStr expression, st)
      else
        let expr := jsTrim expression
        match CParser.searchRecursive expr.toList with
        | some (varName, funcName, _argExpr) =>
            let varValue := (Memory.getVariable fuel st.mem varName scope).getD .vUndefined
            (match mlookup st.mem.lastReturnValues funcName with
             | some returnValue => (jsMul varValue returnValue, st)
             | none => (varValue, st))
        | none =>
        match CParser.searchCall expr.toList with
        | some (functionName, _argsStr) =>
            (match mlookup st.mem.lastReturnValues functionName with
             | some rv => (rv, st)
             | none => (.vInt 0, st))
        | none =>
        match CParser.parseExpression expr with
        | [t] => getExpressionValue fuel st t scope
        | [t1, t2, t3] =>
            let (left, st1) := getExpressionValue fuel st t1 scope
            let (right, st2) := getExpressionValue fuel st1 t3 scope
            evalThreeTokens st2 left t2 right
        | t :: _ => getExpressionValue fuel st t scope
        | [] =>
            (.vUndefined, haltWithError st
              ("Erro: Expressão inválida ou muito complexa para avaliação simplificada: " ++ expr))

/-- `CExecutor.getExpressionValue` with fuel: numbers, numeric strings,
quoted literals, identifier lookup (undefined defaults to `0`), and
bounds-checked array reads. -/
def getExpressionValue : Nat → ExecState → CParser.Token → String → Value × ExecState
  | 0, st, _, _ => (.vUndefined, st)
  | fuel + 1, st, tok, scope =>
      match tok with
      | .num n => (.vInt n, st)
      | .str s =>
          let token := jsTrim s
          if isNumericString token then (numericStringToInt token.toList, st)
          else if (jsStartsWith token "\"" && jsEndsWith token "\"") ||
              (jsStartsWith token "'" && jsEndsWith token "'") then
            (.vStr token, st)
          else
            let v := (Memory.getVariable fuel st.mem token scope).getD .vUndefined
            (if v = .vUndefined then .vInt 0 else v, st)
      | .arrayAccess arrayName indexExpression =>
          (match Memory.getVariableInfo st.mem arrayName scope with
           | some (.array _elementType elementSize arraySize address _ _) =>
               let (indexValue, st1) := evaluateExpression fuel st indexExpression scope
               (match indexValue with
                | .vInt i =>
                    if i < 0 || (arraySize : Int) ≤ i then
                      (.vUndefined, haltWithError st1 (oobMsg (.vInt i) arrayName arraySize))
                    else
                      (Memory.memRead st1.mem (address + i.toNat * elementSize), st1)
                | v => (.vUndefined, haltWithError st1 (oobMsg v arrayName arraySize)))
           | _ => (.vUndefined, haltWithError st (notArrayMsg arrayName scope)))
      | .unknownTok v =>
          (.vUndefined, haltWithError st ("Erro: Token de expressão desconhecido: " ++ jsonUnknownTok v))

end

/-- The local-frame registration step of
`CExecutor.executeVariableDeclaration` (non-global scope, successful
declaration). -/
def registerLocal (st : ExecState) (scope : String) (address : Option Nat)
    (name : String) : ExecState :=
  if scope ≠ "global" then
    match address with
    | some addr =>
        (match st.mem.stackFrames with
         | currentFrame :: rest =>
             let fr := { currentFrame with vars := mset currentFrame.vars name addr }
             { st with mem := { st.mem with stackFrames := fr :: rest } }
         | [] => st)
    | none => st
  else st

/-- `CExecutor.executeVariableDeclaration` (handles both scalar and
array declaration nodes). -/
def executeVariableDeclaration (fuel : Nat) (st : ExecState) (instruction : Instr)
    (functionName : String) : ExecState :=
  let scope := if functionName = "global" then "global" else functionName
  match instruction with
  | .variableDeclaration varType name initialValue =>
      let (address, mem1) := Memory.declareVariable st.mem name (.simple varType) initialValue scope
      let st2 := registerLocal { st with mem := mem1 } scope address name
      (match initialValue with
       | some iv =>
           if iv ≠ "" && !isLiteral iv then
             let (value, st3) := evaluateExpression fuel st2 iv scope
             let (_, mem4) := Memory.setVariable st3.mem name value scope
             { st3 with mem := mem4 }
           else st2
       | none => st2)
  | .arrayDeclaration node =>
      let (address, mem1) := Memory.declareVariable st.mem node.name
        (.arrayNode node.varType node.size node.initialValue) none scope
      let st2 := registerLocal { st with mem := mem1 } scope address node.name
      (match node.initialValue with
       | some (.str raw) =>
           if raw ≠ "" && !isLiteral raw then
             let (value, st3) := evaluateExpression fuel st2 raw scope
             let (_, mem4) := Memory.setVariable st3.mem node.name value scope
             { st3 with mem := mem4 }
           else st2
       | _ => st2)
  | _ => st

/-- `CExecutor.executeAssignment`: evaluate the right-hand side, then
either a bounds-checked array-element write or a scalar
`Memory.setVariable` (re-evaluating address-of right-hand sides). -/
def executeAssignment (fuel : Nat) (st : ExecState) (target : LValue) (value : String)
    (functionName : String) : ExecState :=
  let scope := if functionName = "global" then "global" else functionName
  let (evaluatedRhsValue, st1) := evaluateExpression fuel st value scope
  match target with
  | .arrayAccess arrayName indexExpression =>
      (match Memory.getVariableInfo st1.mem arrayName scope with
       | some (.array _elementType elementSize arraySize address _ _) =>
           let (indexValue, st2) := evaluateExpression fuel st1 indexExpression scope
           (match indexValue with
            | .vInt i =>
                if i < 0 || (arraySize : Int) ≤ i then
                  haltWithError st2 (oobMsg (.vInt i) arrayName arraySize)
                else
                  let targetAddress := address + i.toNat * elementSize
                  let mem3 := { st2.mem with memory := mset st2.mem.memory targetAddress evaluatedRhsValue }
                  { st2 with mem := mem3 }
            | v => haltWithError st2 (oobMsg v arrayName arraySize))
       | _ => haltWithError st1 (notArrayMsg arrayName scope))
  | .varName name =>
      let (valueToSet, st2) :=
        if jsStartsWith value "&" then evaluateExpression fuel st1 value scope
        else (evaluatedRhsValue, st1)
      let (_, mem3) := Memory.setVariable st2.mem name valueToSet scope
      { st2 with mem := mem3 }

/-- A printf conversion character (`%[diouxXfFeEgGaAcs]`). -/
def printfSpecChar (c : Char) : Bool :=
  c = 'd' || c = 'i' || c = 'o' || c = 'u' || c = 'x' || c = 'X' || c = 'f' || c = 'F' ||
  c = 'e' || c = 'E' || c = 'g' || c = 'G' || c = 'a' || c = 'A' || c = 'c' || c = 's'

/-- The format-string substitution of `CExecutor.executePrintf`:
each conversion, left to right, takes the next argument (evaluated in
the caller's scope); leftover conversions stay verbatim. -/
def printfSubst (fuel : Nat) (functionName : String) (args : List String) :
    List Char → ExecState → Nat → List Char × ExecState
  | [], st, _ => ([], st)
  | '%' :: c :: rest, st, argIndex =>
      if printfSpecChar c then
        if argIndex < args.length then
          let arg := args.getD argIndex ""
          let (v, st1) := evaluateExpression fuel st arg functionName
          let (tail, st2) := printfSubst fuel functionName args rest st1 (argIndex + 1)
          ((jsValueToString v).toList ++ tail, st2)
        else
          let (tail, st1) := printfSubst fuel functionName args rest st argIndex
          ('%' :: c :: tail, st1)
      else
        let (tail, st1) := printfSubst fuel functionName args (c :: rest) st argIndex
        ('%' :: tail, st1)
  | c :: rest, st, argIndex =>
      let (tail, st1) := printfSubst fuel functionName args rest st argIndex
      (c :: tail, st1)

/-- `CExecutor.executePrintf`. -/
def executePrintf (fuel : Nat) (st : ExecState) (args : List String)
    (functionName : String) : ExecState :=
  match args with
  | [] => { st with output := st.output ++ [""] }
  | fmt :: _ =>
      let format :=
        if jsStartsWith fmt "\"" && jsEndsWith fmt "\"" then
          String.mk ((fmt.toList.drop 1).dropLast)
        else fmt
      let (outChars, st1) := printfSubst fuel functionName args format.toList st 1
      { st1 with output := st1.output ++ [String.mk outChars] }

/-- `CExecutor.executeFunctionCall`: printf special case; undefined
functions are reported and skipped; otherwise evaluate the arguments in
the caller's scope, push a frame and splice the callee's raw statement
list plus a `function_end` marker into the tape right after the current
position. -/
def executeFunctionCall (fuel : Nat) (st : ExecState) (name : String)
    (args : List String) (callerFunction : String) : ExecState :=
  if name = "printf" then executePrintf fuel st args callerFunction
  else
    match st.ast.find? (fun f => f.name = name) with
    | none => { st with output := st.output ++ ["Erro: Função '" ++ name ++ "' não definida"] }
    | some functionDef =>
        let (params, st1) := (functionDef.parameters.zip args).foldl (fun acc pa =>
            let argValue := pa.2
            if argValue ≠ "" && !isLiteral argValue then
              let (v, stz) := evaluateExpression fuel acc.2 argValue callerFunction
              (acc.1 ++ [(pa.1.name, v)], stz)
            else (acc.1 ++ [(pa.1.name, Value.vStr argValue)], acc.2))
          (([] : List (String × Value)), st)
        let (_frameId, mem2) := Memory.pushStackFrame st1.mem name params (some callerFunction)
        let st2 := { st1 with mem := mem2 }
        let insertPoint := st2.executionPointer + 1
        let newItems := functionDef.body.map (fun ins => TapeItem.mk name ins false) ++
          [TapeItem.mk name (.functionEnd callerFunction) false]
        let tape := st2.executionStack.take insertPoint ++ newItems ++
          st2.executionStack.drop insertPoint
        { st2 with executionStack := tape }

/-- Whether a tape item is the `function_end` marker of `functionName`. -/
def isFunctionEndOf (functionName : String) (item : TapeItem) : Bool :=
  (match item.instruction with
   | .functionEnd _ => true
   | _ => false) && item.func = functionName

/-- The forward scan of `CExecutor.executeReturn` for the nearest
matching `function_end` marker at or after `start`. -/
def findFunctionEnd (stack : List TapeItem) (functionName : String) (start : Nat) : Option Nat :=
  match (stack.drop start).findIdx? (isFunctionEndOf functionName) with
  | some j => some (start + j)
  | none => none

/-- `CExecutor.executeReturn`: compute the return value (recursive
returns multiply the variable by the callee's cached last return,
defaulting to the bare variable), record it in the frame, the cache and
the completed-frames history, pop the frame, halt when returning from
`main`, otherwise jump to the function's end marker. -/
def executeReturn (fuel : Nat) (st : ExecState) (instruction : Instr)
    (functionName : String) : ExecState :=
  match instruction with
  | .ret isRecursive value recursiveVar recursiveFunc _recursiveArgs =>
      let (returnValue, st1) :=
        if isRecursive then
          let varValue := (Memory.getVariable fuel st.mem recursiveVar functionName).getD .vUndefined
          (match mlookup st.mem.lastReturnValues recursiveFunc with
           | some recursiveReturnValue => (jsMul varValue recursiveReturnValue, st)
           | none => (varValue, st))
        else
          if value ≠ "" && !isLiteral value then evaluateExpression fuel st value functionName
          else (Value.vStr value, st)
      let mem2 := Memory.setReturnValue st1.mem returnValue
      let mem3 := { mem2 with lastReturnValues := mset mem2.lastReturnValues functionName returnValue }
      let st2 := { st1 with mem := mem3 }
      let st3 :=
        match Memory.getCurrentFrame st2.mem with
        | some currentFrame =>
            let snap := { currentFrame with returnValue := returnValue }
            { st2 with completedFrames := st2.completedFrames ++ [snap] }
        | none => st2
      let (_, mem4) := Memory.popStackFrame st3.mem
      let st4 := { st3 with mem := mem4 }
      if functionName = "main" then { st4 with isRunning := false }
      else
        match findFunctionEnd st4.executionStack functionName st4.executionPointer with
        | some idx => { st4 with executionPointer := idx }
        | none => st4
  | _ => st

/-- The skip scan of `CExecutor.executeIfCondition`: starting right
after the condition marker, find the matching same-depth `else_start` or
`if_end`; `none` leaves the pointer unchanged (scan ran off the end). -/
def ifSkipTargetAux (stack : List TapeItem) : Nat → Nat → Nat → Option Nat
  | 0, _, _ => none
  | fuel + 1, skipTo, depth =>
      if skipTo < stack.length then
        let next := skipTo + 1
        match stack.get? next with
        | none => none
        | some item =>
            (match item.instruction with
             | .ifCondition _ => ifSkipTargetAux stack fuel next (depth + 1)
             | .ifEnd => if depth = 0 then some next else ifSkipTargetAux stack fuel next (depth - 1)
             | .elseStart => if depth = 0 then some next else ifSkipTargetAux stack fuel next depth
             | _ => ifSkipTargetAux stack fuel next depth)
      else none

/-- `CExecutor.executeIfCondition`: evaluate; when falsy, jump past the
then-block. -/
def executeIfCondition (fuel : Nat) (st : ExecState) (condition : String)
    (functionName : String) : ExecState :=
  let (result, st1) := evaluateExpression fuel st condition functionName
  if jsTruthy result then st1
  else
    match ifSkipTargetAux st1.executionStack (st1.executionStack.length + 1)
        st1.executionPointer 0 with
    | some idx => { st1 with executionPointer := idx }
    | none => st1

/-- `CExecutor.executeInstruction` dispatch.  The switch has no case for
`array_declaration`, `if`, `while_loop`, `for_loop` or `unknown`
statements: they all fall to the default unsupported-instruction
warning. -/
def executeInstruction (fuel : Nat) (st : ExecState) (item : TapeItem) : ExecState :=
  let functionName := item.func
  match item.instruction with
  | .variableDeclaration varType name initialValue =>
      executeVariableDeclaration fuel st (.variableDeclaration varType name initialValue) functionName
  | .assignment target value => executeAssignment fuel st target value functionName
  | .functionCall name args => executeFunctionCall fuel st name args functionName
  | .ret a b c d e => executeReturn fuel st (.ret a b c d e) functionName
  | .ifCondition condition => executeIfCondition fuel st condition functionName
  | .ifEnd => st
  | .elseStart => st
  | .elseEnd => st
  | .functionEnd returnTo => { st with currentFunction := some returnTo }
  | other => { st with output := st.output ++ ["Aviso: Instrução não suportada: " ++ other.typeName] }

/-- The result object of `CExecutor.step`: the early `{done:true}`
returns (`simple`) or the full per-step report. -/
inductive StepResult where
  | simple (done : Bool)
  | full (done : Bool) (currentFunction : Option String) (statement : Option Instr)
      (memory : List SnapEntry) (stack : List StackEntry) (output : List String)
      (completedFrames : List Frame)
deriving Repr

/-- `CExecutor.step`: no-op when not running or paused; running off the
tape end turns Done; otherwise mark visited, dispatch, advance the
pointer and report. -/
def step (fuel : Nat) (st : ExecState) : StepResult × ExecState :=
  if !st.isRunning || st.isPaused then (.simple true, st)
  else if st.executionStack.length ≤ st.executionPointer then
    (.simple true, { st with isRunning := false })
  else
    match st.executionStack.get? st.executionPointer with
    | none => (.simple true, { st with isRunning := false })
    | some currentExecution =>
        let visitedItem := { currentExecution with visited := true }
        let st1 := { st with
          executionStack := st.executionStack.set st.executionPointer visitedItem,
          currentFunction := some currentExecution.func,
          currentStatement := some currentExecution.instruction }
        let st2 := executeInstruction fuel st1 visitedItem
        let st3 := { st2 with executionPointer := st2.executionPointer + 1 }
        (.full (!st3.isRunning) st3.currentFunction st3.currentStatement
          (Memory.getMemorySnapshot st3.mem) (Memory.getStackSnapshot st3.mem)
          st3.output st3.completedFrames, st3)

/-- `CExecutor.run`: step while running and not paused (`runFuel` bounds
the number of steps, `fuel` is the per-step evaluation fuel). -/
def run : Nat → Nat → ExecState → ExecState
  | 0, _, st => st
  | runFuel + 1, fuel, st =>
      if st.isRunning && !st.isPaused then run runFuel fuel (step fuel st).2
      else st

/-- `CExecutor.pause`. -/
def pause (st : ExecState) : ExecState := { st with isPaused := true }

/-- `CExecutor.resume`. -/
def resume (st : ExecState) : ExecState := { st with isPaused := false }

/-- The constructor's state (every field at its empty/default value). -/
def initial : ExecState :=
  { ast := [], output := [], currentFunction := none, currentStatement := none,
    executionStack := [], executionPointer := 0, isRunning := false,
    isPaused := false, completedFrames := [], mem := Memory.reset }

/-- `CExecutor.reset`: every component back to its empty/default value,
memory delegated to `Memory.reset` (the JS null AST is the empty list). -/
def reset (_st : ExecState) : ExecState := initial

/-- `CExecutor.flattenInstructions`: append each statement; an `if`
additionally gets `if_condition`/`if_end` (and `else_start`/`else_end`)
markers around its recursively flattened branches.  `fuel` bounds the
nesting depth (any fuel at least the statement-tree depth gives the JS
behaviour; the recursion is on sub-trees, so it always terminates in JS). -/
def flattenInstructions (functionName : String) : Nat → List Instr → List TapeItem → List TapeItem
  | 0, _, stack => stack
  | _, [], stack => stack
  | fuel + 1, instruction :: rest, stack =>
      let stack1 := stack ++ [TapeItem.mk functionName instruction false]
      let stack2 :=
        match instruction with
        | .ifStmt condition thenBr elseBr =>
            let s := stack1 ++ [TapeItem.mk functionName (.ifCondition condition) false]
            let s := flattenInstructions functionName fuel thenBr s
            let s := s ++ [TapeItem.mk functionName .ifEnd false]
            (match elseBr with
             | some elseInstrs =>
                 let s := s ++ [TapeItem.mk functionName .elseStart false]
                 let s := flattenInstructions functionName fuel elseInstrs s
                 s ++ [TapeItem.mk functionName .elseEnd false]
             | none => s)
        | _ => stack1
      flattenInstructions functionName fuel rest stack2

/-- `CExecutor.prepareExecution` (on a non-null AST): find `main`,
flatten its body onto a fresh tape, push the `main` frame and start
running. -/
def prepareExecution (flattenFuel : Nat) (st : ExecState) : ExecState :=
  match st.ast.find? (fun f => f.name = "main") with
  | none => { st with output := st.output ++ ["Erro: Função main não encontrada"] }
  | some mainFunction =>
      let stack := flattenInstructions "main" flattenFuel mainFunction.body []
      let (_, mem1) := Memory.pushStackFrame st.mem "main" [] none
      { st with executionStack := stack, mem := mem1, executionPointer := 0,
                isRunning := true, isPaused := false }

/-- `CExecutor.initialize` with the text-parsing stage replaced by the
given statement tree: reset, install the AST, prepare. -/
def initWith (flattenFuel : Nat) (functions : List FuncDef) : ExecState :=
  prepareExecution flattenFuel { initial with ast := functions }

end CExecutor

/-! ## Map lemmas and the run-long symbol-table invariant (claim C2) -/

theorem mlookup_mset {α β : Type} [DecidableEq α] (l : List (α × β)) (key k : α) (v : β) :
    mlookup (mset l key v) k = if key = k then some v else mlookup l k := by
  induction l with
  | nil => by_cases h : key = k <;> simp [mset, mlookup, h]
  | cons p rest ih =>
      obtain ⟨k0, w⟩ := p
      by_cases h0 : k0 = key
      · subst h0
        by_cases h : k0 = k <;> simp [mset, mlookup, h]
      · by_cases h : k0 = k
        · subst h
          have hne : ¬ key = k0 := fun e => h0 e.symm
          simp [mset, mlookup, h0, hne]
        · simp [mset, mlookup, h0, h, ih]

/-- The two-part invariant on the symbol-address map: every bound
address lies below the bump pointer, and no two keys share an address. -/
def AddrMapInv (va : List (String × Nat)) (next : Nat) : Prop :=
  (∀ k a, mlookup va k = some a → a < next) ∧
  (∀ k1 k2 a, mlookup va k1 = some a → mlookup va k2 = some a → k1 = k2)

/-- The invariant as a property of a memory state. -/
def AddrInv (m : MemState) : Prop := AddrMapInv m.variableAddresses m.nextAddress

/-- No two live symbols alias one address (the aliasing half of the
spec's symbol-table invariant). -/
def NoAlias (m : MemState) : Prop :=
  ∀ k1 k2 a, mlookup m.variableAddresses k1 = some a →
    mlookup m.variableAddresses k2 = some a → k1 = k2

theorem addrMapInv_mono (va : List (String × Nat)) (next next2 : Nat)
    (h : AddrMapInv va next) (hle : next ≤ next2) : AddrMapInv va next2 :=
  ⟨fun k a hk => lt_of_lt_of_le (h.1 k a hk) hle, h.2⟩

/-- Binding any key to the fresh bump address and advancing the bump
pointer by a positive size preserves the invariant. -/
theorem addrMapInv_fresh (va : List (String × Nat)) (next size : Nat) (key : String)
    (hs : 0 < size) (h : AddrMapInv va next) :
    AddrMapInv (mset va key next) (next + size) := by
  constructor
  · intro k a hk
    rw [mlookup_mset] at hk
    by_cases hkey : key = k
    · rw [if_pos hkey] at hk
      cases hk
      omega
    · rw [if_neg hkey] at hk
      have := h.1 k a hk
      omega
  · intro k1 k2 a h1 h2
    rw [mlookup_mset] at h1 h2
    by_cases e1 : key = k1
    · by_cases e2 : key = k2
      · subst e1; subst e2; rfl
      · rw [if_pos e1] at h1
        rw [if_neg e2] at h2
        cases h1
        have := h.1 k2 next h2
        omega
    · by_cases e2 : key = k2
      · rw [if_neg e1] at h1
        rw [if_pos e2] at h2
        cases h2
        have := h.1 k1 next h1
        omega
      · rw [if_neg e1] at h1
        rw [if_neg e2] at h2
        exact h.2 k1 k2 a h1 h2

theorem getSizeForType_pos (type : String) : 0 < Memory.getSizeForType type := by
  unfold Memory.getSizeForType
  repeat' split
  all_goals decide

/-- The array per-element loop never touches the address map or the
bump pointer. -/
theorem writeArrayElements_fields (et : String) (ini : Option Memory.ArrInit)
    (b es n : Nat) (m : MemState) :
    (Memory.writeArrayElements et ini b es n m).variableAddresses = m.variableAddresses ∧
    (Memory.writeArrayElements et ini b es n m).nextAddress = m.nextAddress := by
  unfold Memory.writeArrayElements
  generalize (List.range n) = l
  induction l generalizing m with
  | nil => exact ⟨rfl, rfl⟩
  | cons x xs ih => exact ih _

/-- One parameter-binding step keeps the invariant and never lowers the
bump pointer. -/
theorem pushParamStep_inv (functionName : String) (fr : Frame) (m : MemState)
    (pv : String × Value) (h : AddrInv m) :
    AddrInv (Memory.pushParamStep functionName (fr, m) pv).2 ∧
    m.nextAddress ≤ (Memory.pushParamStep functionName (fr, m) pv).2.nextAddress := by
  constructor
  · exact addrMapInv_fresh m.variableAddresses m.nextAddress 4
      (functionName ++ ":" ++ pv.1) (by decide) h
  · exact Nat.le_add_right _ _

/-- The whole parameter loop keeps the invariant. -/
theorem pushFrame_loop_inv (functionName : String) (ps : List (String × Value)) :
    ∀ (fr : Frame) (m : MemState), AddrInv m →
      AddrInv (ps.foldl (Memory.pushParamStep functionName) (fr, m)).2 := by
  induction ps with
  | nil => intro fr m h; exact h
  | cons p rest ih =>
      intro fr m h
      have step := pushParamStep_inv functionName fr m p h
      exact ih (Memory.pushParamStep functionName (fr, m) p).1
        (Memory.pushParamStep functionName (fr, m) p).2 step.1

/-- The memory-model operations of one run that the executor can issue
(the three symbol-binding operations of the claim plus the ones that
leave the address map untouched). -/
inductive MemOp where
  | declare (name : String) (info : Memory.DeclInfo) (initialValue : Option String) (scope : String)
  | pushFrame (functionName : String) (parameters : List (String × Value))
      (callerFunction : Option String)
  | popFrame
  | setVar (name : String) (value : Value) (scope : String)
  | setReturn (value : Value)

/-- Apply one memory operation. -/
def applyOp (m : MemState) : MemOp → MemState
  | .declare name info iv scope => (Memory.declareVariable m name info iv scope).2
  | .pushFrame f ps c => (Memory.pushStackFrame m f ps c).2
  | .popFrame => (Memory.popStackFrame m).2
  | .setVar n v s => (Memory.setVariable m n v s).2
  | .setReturn v => Memory.setReturnValue m v

/-- Run a list of memory operations from a state. -/
def runOps : MemState → List MemOp → MemState
  | m, [] => m
  | m, op :: ops => runOps (applyOp m op) ops

/-- The invariant transfers along equality of the two fields it reads. -/
theorem addrInv_of_fields (m m2 : MemState)
    (hva : m2.variableAddresses = m.variableAddresses)
    (hnext : m2.nextAddress = m.nextAddress) (h : AddrInv m) : AddrInv m2 := by
  unfold AddrInv
  rw [hva, hnext]
  exact h

theorem setVariable_fields (m : MemState) (n : String) (v : Value) (s : String) :
    (Memory.setVariable m n v s).2.variableAddresses = m.variableAddresses ∧
    (Memory.setVariable m n v s).2.nextAddress = m.nextAddress := by
  unfold Memory.setVariable
  dsimp only
  repeat' split
  all_goals exact ⟨rfl, rfl⟩

theorem popStackFrame_fields (m : MemState) :
    (Memory.popStackFrame m).2.variableAddresses = m.variableAddresses ∧
    (Memory.popStackFrame m).2.nextAddress = m.nextAddress := by
  unfold Memory.popStackFrame
  repeat' split
  all_goals exact ⟨rfl, rfl⟩

theorem setReturnValue_fields (m : MemState) (v : Value) :
    (Memory.setReturnValue m v).variableAddresses = m.variableAddresses ∧
    (Memory.setReturnValue m v).nextAddress = m.nextAddress := by
  unfold Memory.setReturnValue
  repeat' split
  all_goals exact ⟨rfl, rfl⟩

theorem addrInv_declare (m : MemState) (name : String) (info : Memory.DeclInfo)
    (iv : Option String) (scope : String) (h : AddrInv m) :
    AddrInv (Memory.declareVariable m name info iv scope).2 := by
  cases info with
  | simple type =>
      have hsize := getSizeForType_pos type
      unfold Memory.declareVariable
      dsimp only [Memory.allocate]
      split
      · split
        · exact addrMapInv_fresh _ _ _ _ hsize h
        · exact addrMapInv_fresh _ _ _ _ hsize h
      · exact addrMapInv_fresh _ _ _ _ hsize h
  | arrayNode et sz ini =>
      cases sz with
      | none => exact h
      | some s =>
          cases s with
          | symbolic _ => exact h
          | num n =>
              show AddrInv (Memory.declareVariable m name
                (.arrayNode et (some (.num n)) ini) iv scope).2
              unfold Memory.declareVariable
              dsimp only [Memory.allocate]
              split
              · exact h
              · next hn =>
                  have hpos : 0 < n.toNat * Memory.getSizeForType et :=
                    Nat.mul_pos (by omega) (getSizeForType_pos et)
                  refine addrInv_of_fields _ _
                    (writeArrayElements_fields _ _ _ _ _ _).1
                    (writeArrayElements_fields _ _ _ _ _ _).2 ?_
                  exact addrMapInv_fresh _ _ _ _ hpos h

theorem addrInv_applyOp (m : MemState) (op : MemOp) (h : AddrInv m) :
    AddrInv (applyOp m op) := by
  cases op with
  | declare name info iv scope => exact addrInv_declare m name info iv scope h
  | pushFrame f ps c =>
      unfold applyOp Memory.pushStackFrame
      exact pushFrame_loop_inv f ps _ m h
  | popFrame =>
      exact addrInv_of_fields m _ (popStackFrame_fields m).1 (popStackFrame_fields m).2 h
  | setVar n v s =>
      exact addrInv_of_fields m _ (setVariable_fields m n v s).1 (setVariable_fields m n v s).2 h
  | setReturn v =>
      exact addrInv_of_fields m _ (setReturnValue_fields m v).1 (setReturnValue_fields m v).2 h

theorem addrInv_runOps (ops : List MemOp) : ∀ m, AddrInv m → AddrInv (runOps m ops) := by
  induction ops with
  | nil => intro m h; exact h
  | cons op rest ih => intro m h; exact ih (applyOp m op) (addrInv_applyOp m op h)

theorem addrInv_reset : AddrInv Memory.reset :=
  ⟨fun k a hk => by simp [mlookup, Memory.reset] at hk,
   fun k1 k2 a h1 _ => by simp [mlookup, Memory.reset] at h1⟩

/-! ## Fixtures: concrete programs and states used by the claims -/

/-- The factorial function body of claim C1: the base-case `if` returns
`1`, then the recursive-return statement `return n * factorial(n-1)`
(the parser's recursive-return node). -/
def factorialBody : List Instr :=
  [ .ifStmt "n <= 1" [.ret false "1" "" "" []] none,
    .ret true "n * factorial(n-1)" "n" "factorial" ["n-1"] ]

/-- The factorial program of claim C1: `main` calls `factorial(5)` and
returns 0. -/
def factorialProgram : List FuncDef :=
  [ { returnType := "int", name := "factorial",
      parameters := [{ type := "int", name := "n" }], body := factorialBody },
    { returnType := "int", name := "main", parameters := [],
      body := [.functionCall "factorial" ["5"], .ret false "0" "" "" []] } ]

/-- The state after stepping the factorial program to completion (20
steps and fuel 100 are far more than the run needs). -/
def factorialFinal : ExecState := CExecutor.run 20 100 (CExecutor.initWith 10 factorialProgram)

/-- A run state whose memory holds `a = -7` in `main`'s scope (how a
negative operand actually reaches the three-token evaluator, e.g. after
`a = 0 - 7`). -/
def stNegDiv : ExecState :=
  { CExecutor.initial with mem := { Memory.reset with
      variableAddresses := [("main:a", 0x1000)],
      memory := [(0x1000, .vInt (-7))],
      nextAddress := 0x1004 } }

/-- Claim C4's state: frames `main ← g ← f` (head = top) and `x = 42`
declared only in `main`'s scope. -/
def mChain : MemState :=
  { Memory.reset with
    stackFrames :=
      [ { id := 2, func := "f", caller := some "g", parameters := [], vars := [],
          returnAddress := none, returnValue := .vNull },
        { id := 1, func := "g", caller := some "main", parameters := [], vars := [],
          returnAddress := none, returnValue := .vNull },
        { id := 0, func := "main", caller := none, parameters := [], vars := [],
          returnAddress := none, returnValue := .vNull } ],
    variableAddresses := [("main:x", 0x1000)],
    memory := [(0x1000, .vInt 42)],
    nextAddress := 0x1004 }

/-- Claim C4's witness state: one frame of `f` called from `main`,
nothing declared. -/
def mW : MemState :=
  { Memory.reset with stackFrames :=
      [ { id := 1, func := "f", caller := some "main", parameters := [], vars := [],
          returnAddress := none, returnValue := .vNull } ] }

/-- Claim C9's state: one frame of `f` called from `main`, nothing
declared anywhere. -/
def mLoop : MemState :=
  { Memory.reset with stackFrames :=
      [ { id := 1, func := "f", caller := some "main", parameters := [], vars := [],
          returnAddress := none, returnValue := .vNull } ] }

/-- Claim C5's state: `int a[3] = {1,2,3}` declared in `main`'s scope. -/
def st5 : ExecState :=
  { CExecutor.initial with mem := (Memory.declareVariable Memory.reset "a"
      (.arrayNode "int" (some (.num 3)) (some (.list [.vInt 1, .vInt 2, .vInt 3])))
      none "main").2 }

/-- Claim C7's parsed node for `char s[] = "hi"`. -/
def sHiNode : CParser.ArrayDeclNode :=
  (CParser.parseArrayDeclLine "char s[] = \"hi\"").getD ⟨"", "", none, none⟩

/-- Claim C7's memory after declaring the parsed `char s[] = "hi"`. -/
def memHi : MemState :=
  (Memory.declareVariable Memory.reset sHiNode.name
    (.arrayNode sHiNode.varType sHiNode.size sHiNode.initialValue) none "global").2

/-- Claim C10's state: `x` bound (to value 7) only in the global scope. -/
def m10 : MemState :=
  { Memory.reset with
    variableAddresses := [("global:x", 0x1000)],
    memory := [(0x1000, .vInt 7)],
    nextAddress := 0x1004 }

/-- The lookup never returns, whatever fuel it is given. -/
def getVariableDiverges (m : MemState) (name scope : String) : Prop :=
  ∀ fuel, Memory.getVariable fuel m name scope = none

/-- The caller of a function, read off its (bottom-most is irrelevant
here: the fixture has one frame per function) frame. -/
def callerOf (m : MemState) (f : String) : Option String :=
  (m.stackFrames.find? (fun fr => fr.func = f)).bind Frame.caller

/-- The caller-chain walk that claim C4's wording describes: look the
name up in the calling function's scope, then continue with that
function's own caller, recursively; undefined when the chain ends. -/
def claimedWalk (m : MemState) (name : String) : Nat → Option String → Value
  | _, none => .vUndefined
  | 0, some _ => .vUndefined
  | fuel + 1, some c =>
      match mlookup m.variableAddresses (c ++ ":" ++ name) with
      | some a => Memory.memRead m a
      | none => claimedWalk m name fuel (callerOf m c)

/-- `getVariable` as claim C4 words it (the refinement comparator, built
from the claim's words rather than the source): the given scope, then
global, then — if a call frame exists — the calling function's scope,
recursively up the caller chain; the first value found, else undefined. -/
def claimedGetVariable (m : MemState) (name scope : String) : Value :=
  match mlookup m.variableAddresses (scope ++ ":" ++ name) with
  | some a => Memory.memRead m a
  | none =>
      match mlookup m.variableAddresses ("global:" ++ name) with
      | some a => Memory.memRead m a
      | none =>
          match m.stackFrames.head? with
          | some fr => claimedWalk m name (m.stackFrames.length + 1) fr.caller
          | none => .vUndefined

/-- On `mChain`, the lookup reduces to itself at scope `g`: the top
frame never changes, so the caller consulted never advances. -/
theorem mChain_loop_g : ∀ fuel, Memory.getVariable fuel mChain "x" "g" = none := by
  intro fuel
  induction fuel with
  | zero => rfl
  | succ n ih => exact ih

/-- The scope-`f` lookup on `mChain` reduces to the scope-`g` loop. -/
theorem mChain_diverges : getVariableDiverges mChain "x" "f" := by
  intro fuel
  cases fuel with
  | zero => rfl
  | succ n => exact mChain_loop_g n

/-- On `mLoop`, the lookup reduces to itself at scope `main`. -/
theorem mLoop_loop_main : ∀ fuel, Memory.getVariable fuel mLoop "y" "main" = none := by
  intro fuel
  induction fuel with
  | zero => rfl
  | succ n ih => exact ih

/-- The JS `scope = functionName === 'global' ? 'global' : functionName`
computation is the identity. -/
theorem scopeOfFunction (functionName : String) :
    (if functionName = "global" then "global" else functionName) = functionName := by
  split
  · next h => exact h.symm
  · rfl

/-! ## The claims -/

/-- C1: stepping the factorial-style program (`factorial(n)` with a
base-case `if` returning 1 and a `return n * factorial(n-1)`, invoked as
`factorial(5)` from `main`) to completion does NOT yield 120 with 6
completed frames: the spliced callee body leaves the `if` statement
unexecuted (reported as an unsupported instruction), no recursive call
is ever made, and the run finishes with a computed factorial value of 5
and exactly 2 completed frames (`factorial(5)` and `main`). -/
theorem claim1_factorial_run :
    factorialFinal.isRunning = false ∧
    factorialFinal.completedFrames.length = 2 ∧
    ¬ factorialFinal.completedFrames.length = 6 ∧
    mlookup factorialFinal.mem.lastReturnValues "factorial" = some (.vInt 5) ∧
    ¬ mlookup factorialFinal.mem.lastReturnValues "factorial" = some (.vInt 120) ∧
    factorialFinal.completedFrames.map Frame.returnValue = [.vInt 5, .vStr "0"] ∧
    factorialFinal.output = ["Aviso: Instrução não suportada: if"] := by
  exact ⟨rfl, rfl, by decide, rfl, by decide, rfl, rfl⟩

/-- C2 (counterexample): pushing a call frame for `f` with parameter `x`
twice in one run rebinds the already-bound key `f:x` from address
0x1000 to the different address 0x1004, refuting "no operation ever
rebinds an already-bound (scope, name) key to a different address". -/
theorem claim2_rebind_counterexample :
    mlookup (runOps Memory.reset
        [.pushFrame "f" [("x", .vInt 1)] none]).variableAddresses "f:x" = some 0x1000 ∧
    mlookup (runOps Memory.reset
        [.pushFrame "f" [("x", .vInt 1)] none,
         .pushFrame "f" [("x", .vInt 2)] (some "main")]).variableAddresses "f:x" = some 0x1004 ∧
    ¬ (0x1000 : Nat) = 0x1004 := by
  exact ⟨rfl, rfl, by decide⟩

/-- C2 (amended): over a whole run from the reset state, under any
sequence of memory operations (scalar declarations, array declarations,
frame pushes and the non-binding operations), the symbol table never
aliases: no two keys are ever bound to the same address — every binding
uses a fresh bump-allocated address.  (The rebinding half of the
original claim is false, see the counterexample.) -/
theorem claim2_no_aliasing (ops : List MemOp) : NoAlias (runOps Memory.reset ops) :=
  (addrInv_runOps ops Memory.reset addrInv_reset).2

/-- C2 (witness): the no-aliasing theorem applied to a concrete run. -/
theorem claim2_witness :
    NoAlias (runOps Memory.reset
      [.declare "x" (.simple "int") (some "1") "global",
       .pushFrame "f" [("n", .vInt 5)] (some "main"),
       .pushFrame "f" [("n", .vInt 4)] (some "f")]) :=
  claim2_no_aliasing _

/-- C3 (counterexample): the three-token path `a / 2` with `a = -7`
(reachable, since variables can hold negative values) evaluates to -4 —
`Math.floor` division — whereas C-style truncating division gives -3;
so `/` is not C-style truncating division on every numeric operand
pair. -/
theorem claim3_truncation_counterexample :
    (CExecutor.evaluateExpression 10 stNegDiv "a" "main").1 = .vInt (-7) ∧
    (CExecutor.evaluateExpression 10 stNegDiv "a / 2" "main").1 = .vInt (-4) ∧
    Int.tdiv (-7) 2 = -3 ∧
    ¬ ((-4 : Int) = -3) := by
  exact ⟨rfl, rfl, by decide, by decide⟩

/-- C3 (amended): on every three-token expression with numeric operands
the `/` operator performs FLOOR division (`Math.floor`, which agrees
with C truncation exactly when both operands are nonnegative) and `%`
performs C-style truncated modulo; `7 / 2` evaluates to 3 through the
full expression pipeline; division or modulo by zero halts the run as
fatal with the error line appended. -/
theorem claim3_division_semantics (st : ExecState) (a b : Int) :
    (CExecutor.evalThreeTokens st (.vInt a) (.str "/") (.vInt b) =
      if b = 0 then ((.vUndefined : Value), haltWithError st "Erro: Divisão por zero.")
      else ((.vInt (Int.fdiv a b) : Value), st)) ∧
    (CExecutor.evalThreeTokens st (.vInt a) (.str "%") (.vInt b) =
      if b = 0 then ((.vUndefined : Value), haltWithError st "Erro: Modulo por zero.")
      else ((.vInt (Int.tmod a b) : Value), st)) ∧
    (0 ≤ a → 0 ≤ b → Int.fdiv a b = Int.tdiv a b) ∧
    (CExecutor.evaluateExpression 10 CExecutor.initial "7 / 2" "main").1 = .vInt 3 ∧
    (CExecutor.evaluateExpression 10 CExecutor.initial "7 % 0" "main").2.output =
      ["Erro: Modulo por zero."] ∧
    (CExecutor.evaluateExpression 10 CExecutor.initial "7 % 0" "main").2.isRunning = false ∧
    (CExecutor.evaluateExpression 10 CExecutor.initial "1 / 0" "main").2.output =
      ["Erro: Divisão por zero."] ∧
    (CExecutor.evaluateExpression 10 CExecutor.initial "1 / 0" "main").2.isRunning = false := by
  refine ⟨rfl, rfl, fun ha hb => Int.fdiv_eq_tdiv ha hb, rfl, rfl, rfl, rfl, rfl⟩

/-- C3 (witness): the division semantics at `7 / 2` — floor division
returns 3 and agrees with truncation there. -/
theorem claim3_witness :
    CExecutor.evalThreeTokens CExecutor.initial (.vInt 7) (.str "/") (.vInt 2) =
      ((.vInt (Int.fdiv 7 2) : Value), CExecutor.initial) ∧
    Int.fdiv 7 2 = Int.tdiv 7 2 ∧ Int.fdiv 7 2 = 3 := by
  obtain ⟨h1, _h2, h3, _⟩ := claim3_division_semantics CExecutor.initial 7 2
  rw [if_neg (by decide)] at h1
  exact ⟨h1, h3 (by decide) (by decide), by decide⟩

/-- C4 (counterexample): with frames `main ← g ← f` and `x = 42`
declared only in `main`'s scope, the claimed chain walk finds 42, but
the code's lookup re-consults the TOP frame's caller forever and never
returns (it exhausts any fuel), refuting the claimed resolution order
(which would have returned the value found up the chain). -/
theorem claim4_chain_walk_counterexample :
    claimedGetVariable mChain "x" "f" = .vInt 42 ∧
    getVariableDiverges mChain "x" "f" :=
  ⟨rfl, mChain_diverges⟩

/-- C4 (amended): when the name is missing from the given (non-global)
scope and from the global scope and a frame exists, the lookup recurses
with the TOP frame's caller scope — not up the caller chain — so a
failing lookup whose top-frame caller is a named function repeats the
same caller scope forever instead of returning undefined. -/
theorem claim4_top_caller_recursion (m : MemState) (name scope c : String) (fuel : Nat)
    (hscope : scope ≠ "global")
    (h1 : mlookup m.variableAddresses (scope ++ ":" ++ name) = none)
    (h2 : mlookup m.variableAddresses ("global:" ++ name) = none)
    (h3 : (Memory.getCurrentFrame m).bind Frame.caller = some c)
    (hc : c ≠ "") :
    Memory.getVariable (fuel + 1) m name scope = Memory.getVariable fuel m name c := by
  cases hsf : m.stackFrames with
  | nil =>
      rw [Memory.getCurrentFrame, hsf] at h3
      simp at h3
  | cons fr rest =>
      have hcaller : fr.caller = some c := by
        rw [Memory.getCurrentFrame, hsf] at h3
        simpa using h3
      conv_lhs => unfold Memory.getVariable
      rw [h1, if_pos hscope, h2, hsf]
      simp only [List.head?, hcaller]
      rw [if_pos hc]

/-- C4 (witness): the recursion equation at the concrete one-frame state
(`f` called from `main`): the scope-`f` lookup is exactly the
scope-`main` lookup with one unit of fuel spent. -/
theorem claim4_witness :
    Memory.getVariable 3 mW "x" "f" = Memory.getVariable 2 mW "x" "main" :=
  claim4_top_caller_recursion mW "x" "f" "main" 2 (by decide) rfl rfl rfl (by decide)

/-- C5: an array access with an evaluated numeric index outside
`[0, N-1]` — as an assignment target or as a read inside an expression —
halts the run: the state becomes exactly the old state with the
out-of-bounds error line appended and the running flag false, so no
memory cell is written. -/
theorem claim5_oob_halts (fuel : Nat) (st : ExecState)
    (functionName arrayName idxExpr rhs : String)
    (et : String) (es N addr : Nat) (sc nm : String) (i : Int) (rv : Value)
    (hmeta : Memory.getVariableInfo st.mem arrayName functionName =
      some (.array et es N addr sc nm))
    (hrhs : CExecutor.evaluateExpression fuel st rhs functionName = (rv, st))
    (hidx : CExecutor.evaluateExpression fuel st idxExpr functionName = (.vInt i, st))
    (hoob : i < 0 ∨ (N : Int) ≤ i) :
    CExecutor.executeAssignment fuel st (.arrayAccess arrayName idxExpr) rhs functionName =
      haltWithError st (oobMsg (.vInt i) arrayName N) ∧
    (CExecutor.executeAssignment fuel st (.arrayAccess arrayName idxExpr) rhs functionName).mem
      = st.mem ∧
    (CExecutor.executeAssignment fuel st (.arrayAccess arrayName idxExpr) rhs
      functionName).isRunning = false ∧
    (CExecutor.executeAssignment fuel st (.arrayAccess arrayName idxExpr) rhs
      functionName).output.getLast? = some (oobMsg (.vInt i) arrayName N) ∧
    CExecutor.getExpressionValue (fuel + 1) st (.arrayAccess arrayName idxExpr) functionName =
      ((.vUndefined : Value), haltWithError st (oobMsg (.vInt i) arrayName N)) := by
  have hscope : (if functionName = "global" then "global" else functionName) = functionName :=
    scopeOfFunction functionName
  have hcond : (decide (i < 0) || decide ((N : Int) ≤ i)) = true := by
    rcases hoob with h | h
    · simp [h]
    · simp [h]
  have hwrite : CExecutor.executeAssignment fuel st (.arrayAccess arrayName idxExpr) rhs
      functionName = haltWithError st (oobMsg (.vInt i) arrayName N) := by
    unfold CExecutor.executeAssignment
    rw [hscope]
    dsimp only
    rw [hrhs]
    dsimp only
    rw [hmeta]
    dsimp only
    rw [hidx]
    dsimp only
    rw [hcond]
    rfl
  have hread : CExecutor.getExpressionValue (fuel + 1) st
      (.arrayAccess arrayName idxExpr) functionName =
      ((.vUndefined : Value), haltWithError st (oobMsg (.vInt i) arrayName N)) := by
    unfold CExecutor.getExpressionValue
    dsimp only
    rw [hmeta]
    dsimp only
    rw [hidx]
    dsimp only
    rw [hcond]
    rfl
  refine ⟨hwrite, ?_, ?_, ?_, hread⟩
  · rw [hwrite]
    rfl
  · rw [hwrite]
    rfl
  · rw [hwrite]
    simp [haltWithError]

/-- C5 (witness): index 5 on the 3-element array `a` halts the run with
the out-of-bounds line, on both the write path and the read path. -/
theorem claim5_witness :
    CExecutor.executeAssignment 10 st5 (.arrayAccess "a" "5") "1" "main" =
      haltWithError st5 (oobMsg (.vInt 5) "a" 3) ∧
    CExecutor.getExpressionValue 11 st5 (.arrayAccess "a" "5") "main" =
      ((.vUndefined : Value), haltWithError st5 (oobMsg (.vInt 5) "a" 3)) := by
  have h := claim5_oob_halts 10 st5 "main" "a" "5" "1" "int" 4 3 0x1000 "main" "a" 5
    (.vInt 1) rfl rfl rfl (Or.inr (by decide))
  exact ⟨h.1, h.2.2.2.2⟩

/-- C6: once the run is no longer Running, `step()` returns the
`{done: true}` result immediately and the entire state — memory, frame
stack, output, tape and execution pointer — is returned unchanged. -/
theorem claim6_step_after_done (fuel : Nat) (st : ExecState) (h : st.isRunning = false) :
    CExecutor.step fuel st = (.simple true, st) := by
  unfold CExecutor.step
  rw [h]
  rfl

/-- C6 (witness): stepping the constructor state (not running). -/
theorem claim6_witness : CExecutor.step 5 CExecutor.initial = (.simple true, CExecutor.initial) :=
  claim6_step_after_done 5 CExecutor.initial rfl

/-- C7: `char s[] = "hi"` parses with inferred size 3 (string length
plus terminator), and after declaring it the memory snapshot consists of
exactly `s[0]`, `s[1]`, `s[2]` with byte values 104, 105, 0 in that
order. -/
theorem claim7_char_array_hi :
    CParser.parseArrayDeclLine "char s[] = \"hi\"" =
      some { varType := "char", name := "s", size := some (.num 3),
             initialValue := some (.str "\"hi\"") } ∧
    (Memory.getMemorySnapshot memHi).map (fun e => (e.name, e.value)) =
      [("s[0]", .vInt 104), ("s[1]", .vInt 105), ("s[2]", .vInt 0)] :=
  ⟨rfl, rfl⟩

/-- C8: `reset()` is idempotent — from any state, resetting twice equals
resetting once — and after a reset every component is empty/default:
memory store, pointer table, symbol table, metadata, frame stack, tape,
output, last-return cache and completed-frame history are empty, the
execution pointer is 0 and the bump pointer is back at the 0x1000
base. -/
theorem claim8_reset_idempotent (st : ExecState) :
    CExecutor.reset (CExecutor.reset st) = CExecutor.reset st ∧
    (CExecutor.reset st).mem.memory = [] ∧
    (CExecutor.reset st).mem.pointers = [] ∧
    (CExecutor.reset st).mem.variableAddresses = [] ∧
    (CExecutor.reset st).mem.variableMetadata = [] ∧
    (CExecutor.reset st).mem.stackFrames = [] ∧
    (CExecutor.reset st).executionStack = [] ∧
    (CExecutor.reset st).executionPointer = 0 ∧
    (CExecutor.reset st).output = [] ∧
    (CExecutor.reset st).mem.lastReturnValues = [] ∧
    (CExecutor.reset st).completedFrames = [] ∧
    (CExecutor.reset st).mem.nextAddress = 0x1000 :=
  ⟨rfl, rfl, rfl, rfl, rfl, rfl, rfl, rfl, rfl, rfl, rfl, rfl⟩

/-- C9: `getVariable` does NOT terminate in the configuration the claim
describes (name undeclared in the queried scope, in global, and in the
top frame's caller scope, that caller being the non-global function
`main`): the lookup consumes any amount of fuel without returning,
because it recurses on the same caller scope forever. -/
theorem claim9_getVariable_nontermination :
    ∀ fuel, Memory.getVariable fuel mLoop "y" "f" = none := by
  intro fuel
  cases fuel with
  | zero => rfl
  | succ n => exact mLoop_loop_main n

/-- C10: `setVariable` resolves only in the exact given scope: for a
name bound only globally and any non-global scope, it fails and returns
the state unchanged (memory store and pointer table included), while
`getVariable` on the same name and scope succeeds through its global
fallback. -/
theorem claim10_setVariable_exact_scope (m : MemState) (name scope : String)
    (value : Value) (a : Nat) (w : Value)
    (hs : scope ≠ "global")
    (hnone : mlookup m.variableAddresses (scope ++ ":" ++ name) = none)
    (hglob : mlookup m.variableAddresses ("global:" ++ name) = some a)
    (hmem : mlookup m.memory a = some w) :
    Memory.setVariable m name value scope = (false, m) ∧
    Memory.getVariable 1 m name scope = some w := by
  constructor
  · unfold Memory.setVariable
    rw [hnone]
  · unfold Memory.getVariable
    rw [hnone, if_pos hs, hglob]
    dsimp only [Memory.memRead]
    rw [hmem]
    rfl

/-- C10 (witness): `x` bound globally to 7; writing it from scope `f`
fails with the state unchanged while reading it from scope `f` yields
7. -/
theorem claim10_witness :
    Memory.setVariable m10 "x" (.vInt 5) "f" = (false, m10) ∧
    Memory.getVariable 1 m10 "x" "f" = some (.vInt 7) :=
  claim10_setVariable_exact_scope m10 "x" "f" (.vInt 5) 0x1000 (.vInt 7)
    (by decide) rfl rfl rfl

end C99
